import Mathlib

/-!
Verification development for an in-memory string repository (Go, `main.go`).

The embedding models strings as Lean `String`s (sequences of Unicode code
points).  Go's byte-level `len` is modelled by `String.utf8ByteSize`; Go's
`strings.ToLower` is modelled by ASCII case-mapping (`Char.toLower`), which
agrees with Go on every input relevant here since all query patterns, filter
characters and palindrome-normalised text are ASCII.  The SHA-256 identifier
and the creation timestamp are boundary data that no claim depends on, so
records carry only the value and its analysed properties.  Go's 64-bit `int`
arithmetic on parsed numerals is modelled exactly: `strconv.Atoi` clamps to
MaxInt64 on positive overflow (the caller discards the range error) and the
subsequent `+ 1` / `- 1` wrap in two's complement (`wrap64`).
-/

set_option autoImplicit false

namespace StringService

/-- Whitespace as used by Go's `strings.TrimSpace`/`strings.Fields`
(`unicode.IsSpace`), restricted to the Latin-1 range; higher space code
points do not occur in any input considered here. -/
def isSpaceGo (c : Char) : Bool :=
  c == ' ' || c == '\t' || c == '\n' || c == '\x0b' || c == '\x0c' ||
  c == '\r' || c == '\x85' || c == '\xa0'

/-- `strings.ToLower` on the code-point sequence of a string (ASCII case map). -/
def lowerData (s : String) : List Char :=
  s.data.map Char.toLower

/-- The normalisation step of `isPalindrome`: remove every character that is
not an ASCII letter or digit (the regexp `[^a-zA-Z0-9]` replaced by the empty
string), then lower-case the remainder. -/
def normalizeForPalindrome (s : String) : List Char :=
  (s.data.filter Char.isAlphanum).map Char.toLower

/-- `isPalindrome` from `main.go`: normalise, then compare index `i` with
index `length-1-i` for every `i < length/2`. -/
def isPalindrome (s : String) : Bool :=
  (List.range ((normalizeForPalindrome s).length / 2)).all fun i =>
    (normalizeForPalindrome s).getD i ' ' ==
      (normalizeForPalindrome s).getD ((normalizeForPalindrome s).length - 1 - i) ' '

/-- `countUniqueCharacters` from `main.go`: the number of distinct code points
of the unnormalised value (Go builds a `map[rune]bool` and takes its size). -/
def countUniqueCharacters (s : String) : Nat :=
  s.data.dedup.length

/-- One step of counting maximal non-space runs, as `strings.Fields` does;
`inWord` records whether the previous character was part of a word. -/
def countFields : List Char → Bool → Nat
  | [], _ => 0
  | c :: rest, inWord =>
    if isSpaceGo c then countFields rest false
    else (if inWord then 0 else 1) + countFields rest true

/-- `strings.TrimSpace` on a code-point sequence. -/
def trimSpace (l : List Char) : List Char :=
  ((l.dropWhile isSpaceGo).reverse.dropWhile isSpaceGo).reverse

/-- `countWords` from `main.go`: trim, return 0 on empty, else the number of
whitespace-separated fields. -/
def countWords (s : String) : Nat :=
  if (trimSpace s.data).isEmpty then 0 else countFields (trimSpace s.data) false

/-- `getCharacterFrequency` from `main.go`: a map from each distinct code
point (Go renders it as `string(char)`) to its occurrence count in the
unnormalised value, modelled as an association list keyed by code point. -/
def getCharacterFrequency (s : String) : List (Char × Nat) :=
  s.data.dedup.map fun c => (c, s.data.count c)

/-- `StringProperties` from `main.go`, without the SHA-256 hash (boundary
data used only as the record identifier, irrelevant to every claim). -/
structure StringProperties where
  Length : Nat
  IsPalindrome : Bool
  UniqueCharacters : Nat
  WordCount : Nat
  CharacterFrequencyMap : List (Char × Nat)
  deriving DecidableEq

/-- `analyzeString` from `main.go`.  `len(value)` in Go is the UTF-8 byte
length of the value. -/
def analyzeString (value : String) : StringProperties :=
  { Length := value.utf8ByteSize
    IsPalindrome := isPalindrome value
    UniqueCharacters := countUniqueCharacters value
    WordCount := countWords value
    CharacterFrequencyMap := getCharacterFrequency value }

/-- `StringData` from `main.go` (value plus analysed properties; the hash id
and timestamp are boundary data outside the model). -/
structure StringData where
  Value : String
  Properties : StringProperties
  deriving DecidableEq

/-- The error kinds produced by the handlers. -/
inductive ApiError where
  | invalidInput (msg : String)
  | conflict (msg : String)
  | notFound (msg : String)
  deriving DecidableEq

/-- The in-memory storage: a finite map from string value to record,
modelled as an association list (Go: `map[string]*StringData`). -/
abbrev Store := List (String × StringData)

/-- `createString` from `main.go`: reject an empty value, reject a duplicate
value with Conflict, otherwise analyse and store.  The returned store is the
store after the operation (unchanged on failure). -/
def createString (store : Store) (value : String) : Store × Except ApiError StringData :=
  if value = "" then
    (store, .error (.invalidInput "Missing 'value' field"))
  else
    match store.lookup value with
    | some _ => (store, .error (.conflict "String already exists in the system"))
    | none =>
      (store ++ [(value, ⟨value, analyzeString value⟩)],
       .ok ⟨value, analyzeString value⟩)

/-- `getSpecificString` from `main.go`: point lookup by exact value. -/
def getSpecificString (store : Store) (v : String) : Except ApiError StringData :=
  match store.lookup v with
  | some d => .ok d
  | none => .error (.notFound "String does not exist in the system")

/-- `deleteString` from `main.go`: remove the record for `v`, or fail with
NotFound; the returned store is the store after the operation. -/
def deleteString (store : Store) (v : String) : Store × Except ApiError Unit :=
  match store.lookup v with
  | some _ => (store.filter fun p => p.1 != v, .ok ())
  | none => (store, .error (.notFound "String does not exist in the system"))

/-- `pat` matches at the head of `hay` (a literal-string regexp fragment). -/
def leadsWith : List Char → List Char → Bool
  | [], _ => true
  | _ :: _, [] => false
  | p :: ps, h :: hs => p == h && leadsWith ps hs

/-- `strings.Contains hay pat` on code-point sequences (the arguments are
ASCII literals, where byte-level and code-point-level containment agree). -/
def containsSub (hay pat : List Char) : Bool :=
  leadsWith pat hay ||
    match hay with
    | [] => false
    | _ :: t => containsSub t pat

/-- Match the literal `pat` at the head of `hay` and return the rest. -/
def stripPat : List Char → List Char → Option (List Char)
  | [], hay => some hay
  | _ :: _, [] => none
  | p :: ps, h :: hs => if p == h then stripPat ps hs else none

/-- The exact numeric value of a non-empty all-digit capture. -/
def digitsToNat (ds : List Char) : Nat :=
  ds.foldl (fun acc c => acc * 10 + (c.toNat - 48)) 0

/-- The largest value of Go's 64-bit `int`, 2^63 − 1. -/
def maxInt64 : Int := 9223372036854775807

/-- Two's-complement wrap of 64-bit signed `int` arithmetic: reduce modulo
2^64 into [−2^63, 2^63). -/
def wrap64 (x : Int) : Int :=
  (x + 9223372036854775808) % 18446744073709551616 - 9223372036854775808

/-- `strconv.Atoi` of a digit capture with numeric value `n`: parsing into
64-bit `int` returns the clamped MaxInt64 together with ErrRange on positive
overflow, and `parseNaturalLanguageQuery` discards the error, keeping the
clamped value. -/
def atoiInt64 (n : Nat) : Int :=
  min (n : Int) maxInt64

/-- `regexp.FindStringSubmatch` for the patterns `longer than (\d+)` and
`shorter than (\d+)`: the leftmost position where the literal `pat` is
followed by at least one digit wins, and the capture is the maximal digit
run there. -/
def findNumberAfter (pat : List Char) : List Char → Option Nat
  | [] => none
  | c :: rest =>
    match stripPat pat (c :: rest) with
    | some tail =>
      if (tail.takeWhile Char.isDigit).isEmpty then findNumberAfter pat rest
      else some (digitsToNat (tail.takeWhile Char.isDigit))
    | none => findNumberAfter pat rest

/-- The final ` ([a-z])` of the contains-character regexp. -/
def matchLowAlpha (t : List Char) : Option Char :=
  match t with
  | c :: _ => if 'a' ≤ c && c ≤ 'z' then some c else none
  | [] => none

/-- The `(?:letter|character) ([a-z])` tail, alternatives in regexp order. -/
def matchLetterWord (t : List Char) : Option Char :=
  (stripPat "letter ".data t >>= matchLowAlpha) <|>
    (stripPat "character ".data t >>= matchLowAlpha)

/-- The `(?:the )?(?:letter|character) ([a-z])` tail; the greedy optional
group prefers consuming `the ` and backtracks to not consuming it. -/
def matchTheOpt (t : List Char) : Option Char :=
  (stripPat "the ".data t >>= matchLetterWord) <|> matchLetterWord t

/-- After the literal `contain`: `(?:s|ing)? ` with the greedy optional
group tried as `s`, then `ing`, then empty, each followed by the mandatory
space, then the rest of the pattern. -/
def matchAfterContain (t : List Char) : Option Char :=
  (stripPat "s ".data t >>= matchTheOpt) <|>
    (stripPat "ing ".data t >>= matchTheOpt) <|>
      (stripPat " ".data t >>= matchTheOpt)

/-- `regexp.FindStringSubmatch` for
`contain(?:s|ing)? (?:the )?(?:letter|character) ([a-z])`: leftmost-first
scan with Perl-style backtracking at each position. -/
def findContainsChar : List Char → Option Char
  | [] => none
  | c :: rest =>
    match stripPat "contain".data (c :: rest) >>= matchAfterContain with
    | some ch => some ch
    | none => findContainsChar rest

/-- The structured form of the dynamic `map[string]interface{}` of parsed
filters: one optional field per key the parser can set, in the order the
source checks the patterns.  Numeric values are Go `int`s, hence `Int`. -/
structure NLFilters where
  is_palindrome : Option Bool
  word_count : Option Int
  min_length : Option Int
  max_length : Option Int
  contains_character : Option String
  deriving DecidableEq

/-- The filter map with no keys set. -/
def emptyFilters : NLFilters :=
  ⟨none, none, none, none, none⟩

/-- The pattern-matching section of `parseNaturalLanguageQuery`: each check
conditionally sets its key in the map, in source order; `first vowel`
overwrites any previously set `contains_character`. -/
def buildFilters (query : String) : NLFilters :=
  let lowerQuery := lowerData query
  let f1 := if containsSub lowerQuery "palindrom".data then
      { emptyFilters with is_palindrome := some true } else emptyFilters
  let f2 := if containsSub lowerQuery "single word".data then
      { f1 with word_count := some 1 }
    else if containsSub lowerQuery "two word".data then
      { f1 with word_count := some 2 } else f1
  let f3 := match findNumberAfter "longer than ".data lowerQuery with
    | some n => { f2 with min_length := some (wrap64 (atoiInt64 n + 1)) }
    | none => f2
  let f4 := match findNumberAfter "shorter than ".data lowerQuery with
    | some n => { f3 with max_length := some (wrap64 (atoiInt64 n - 1)) }
    | none => f3
  let f5 := match findContainsChar lowerQuery with
    | some c => { f4 with contains_character := some (String.mk [c]) }
    | none => f4
  if containsSub lowerQuery "first vowel".data then
    { f5 with contains_character := some "a" } else f5

/-- `parseNaturalLanguageQuery` from `main.go`: run the pattern checks and
fail when no filter key was set. -/
def parseNaturalLanguageQuery (query : String) : Except String NLFilters :=
  if buildFilters query = emptyFilters then
    .error "could not parse any filters from query"
  else
    .ok (buildFilters query)

/-- `matchesNaturalFilters` from `main.go`: each key present in the filter
map must hold of the record (type assertions on the dynamic map become
`Option` matches). -/
def matchesNaturalFilters (data : StringData) (filters : NLFilters) : Bool :=
  (match filters.is_palindrome with
   | some b => data.Properties.IsPalindrome == b
   | none => true) &&
  (match filters.word_count with
   | some w => (data.Properties.WordCount : Int) == w
   | none => true) &&
  (match filters.min_length with
   | some m => !((data.Properties.Length : Int) < m)
   | none => true) &&
  (match filters.max_length with
   | some m => !((data.Properties.Length : Int) > m)
   | none => true) &&
  (match filters.contains_character with
   | some c => containsSub (lowerData data.Value) (lowerData c)
   | none => true)

/-- `matchesFilters` from `main.go` (the structured filter engine): pointer
arguments become `Option`s, the contains-character argument stays a string
whose emptiness means absent, exactly as in the source. -/
def matchesFilters (data : StringData) (isPalin : Option Bool)
    (minLength maxLength wordCount : Option Int) (containsChar : String) : Bool :=
  (match isPalin with
   | some b => data.Properties.IsPalindrome == b
   | none => true) &&
  (match minLength with
   | some m => !((data.Properties.Length : Int) < m)
   | none => true) &&
  (match maxLength with
   | some m => !((data.Properties.Length : Int) > m)
   | none => true) &&
  (match wordCount with
   | some w => (data.Properties.WordCount : Int) == w
   | none => true) &&
  (!(containsChar ≠ "") || containsSub (lowerData data.Value) (lowerData containsChar))

/-- Field-wise description of the filter map built by the parser. -/
theorem buildFilters_eq (q : String) :
    buildFilters q =
      { is_palindrome :=
          if containsSub (lowerData q) "palindrom".data then some true else none
        word_count :=
          if containsSub (lowerData q) "single word".data then some 1
          else if containsSub (lowerData q) "two word".data then some 2 else none
        min_length :=
          (findNumberAfter "longer than ".data (lowerData q)).map
            fun n => wrap64 (atoiInt64 n + 1)
        max_length :=
          (findNumberAfter "shorter than ".data (lowerData q)).map
            fun n => wrap64 (atoiInt64 n - 1)
        contains_character :=
          if containsSub (lowerData q) "first vowel".data then some "a"
          else (findContainsChar (lowerData q)).map fun c => String.mk [c] } := by
  simp only [buildFilters]
  generalize containsSub (lowerData q) "palindrom".data = a
  generalize containsSub (lowerData q) "single word".data = b
  generalize containsSub (lowerData q) "two word".data = c
  generalize findNumberAfter "longer than ".data (lowerData q) = o1
  generalize findNumberAfter "shorter than ".data (lowerData q) = o2
  generalize findContainsChar (lowerData q) = o3
  generalize containsSub (lowerData q) "first vowel".data = d
  cases a <;> cases b <;> cases c <;> cases o1 <;> cases o2 <;> cases o3 <;> cases d <;> rfl

/-- The parser succeeds exactly on the non-empty filter map it built. -/
theorem parse_ok_iff (q : String) (f : NLFilters) :
    parseNaturalLanguageQuery q = .ok f ↔
      buildFilters q ≠ emptyFilters ∧ f = buildFilters q := by
  by_cases h : buildFilters q = emptyFilters <;>
    simp [parseNaturalLanguageQuery, h, eq_comm]

/-- The parser fails exactly when the filter map it built is empty. -/
theorem parse_error_iff (q : String) :
    parseNaturalLanguageQuery q = .error "could not parse any filters from query" ↔
      buildFilters q = emptyFilters := by
  by_cases h : buildFilters q = emptyFilters <;>
    simp [parseNaturalLanguageQuery, h]

/-- The filter map is empty exactly when none of the seven pattern checks of
the source fires. -/
theorem buildFilters_eq_empty_iff (q : String) :
    buildFilters q = emptyFilters ↔
      (containsSub (lowerData q) "palindrom".data = false ∧
       containsSub (lowerData q) "single word".data = false ∧
       containsSub (lowerData q) "two word".data = false ∧
       findNumberAfter "longer than ".data (lowerData q) = none ∧
       findNumberAfter "shorter than ".data (lowerData q) = none ∧
       findContainsChar (lowerData q) = none ∧
       containsSub (lowerData q) "first vowel".data = false) := by
  rw [buildFilters_eq]
  generalize containsSub (lowerData q) "palindrom".data = a
  generalize containsSub (lowerData q) "single word".data = b
  generalize containsSub (lowerData q) "two word".data = c
  generalize findNumberAfter "longer than ".data (lowerData q) = o1
  generalize findNumberAfter "shorter than ".data (lowerData q) = o2
  generalize findContainsChar (lowerData q) = o3
  generalize containsSub (lowerData q) "first vowel".data = d
  cases a <;> cases b <;> cases c <;> cases o1 <;> cases o2 <;> cases o3 <;> cases d <;>
    simp [emptyFilters]

/-- `wrap64` is the identity on values already in the signed 64-bit range. -/
theorem wrap64_eq_self (x : Int) (h1 : -9223372036854775808 ≤ x)
    (h2 : x ≤ 9223372036854775807) : wrap64 x = x := by
  unfold wrap64
  omega

/-- Witness for `wrap64_eq_self` at a concrete in-range value. -/
theorem wrap64_eq_self_witness : wrap64 42 = 42 :=
  wrap64_eq_self 42 (by decide) (by decide)

/-- C1 fails as stated for every N: Go parses the capture with
`strconv.Atoi` into a 64-bit `int` and computes `N + 1` with wrapping
arithmetic, so the query `longer than 9223372036854775807` sets
`min_length` to MinInt64 = −2^63, not N+1. -/
theorem longer_overflow_counterexample :
    parseNaturalLanguageQuery "longer than 9223372036854775807" =
      .ok ⟨none, none, some (-9223372036854775808), none, none⟩ ∧
    (-9223372036854775808 : Int) ≠ (9223372036854775807 : Int) + 1 :=
  ⟨by rfl, by decide⟩

/-- C1 (amended): whenever the captured decimal N satisfies N+1 ≤ MaxInt64,
a query containing `longer than N` translates to `min_length = N+1`, and
whenever N ≤ MaxInt64, one containing `shorter than N` translates to
`max_length = N−1`; for larger N the 64-bit Atoi clamp and int wrap take
over.  In particular `strings longer than 5` yields exactly
`{min_length: 6}` and `strings shorter than 5` yields exactly
`{max_length: 4}`. -/
theorem longer_shorter_translation_bounded :
    (∀ (q : String) (n : Nat),
        findNumberAfter "longer than ".data (lowerData q) = some n →
        (n : Int) + 1 ≤ maxInt64 →
        ∃ f, parseNaturalLanguageQuery q = .ok f ∧ f.min_length = some ((n : Int) + 1)) ∧
    (∀ (q : String) (n : Nat),
        findNumberAfter "shorter than ".data (lowerData q) = some n →
        (n : Int) ≤ maxInt64 →
        ∃ f, parseNaturalLanguageQuery q = .ok f ∧ f.max_length = some ((n : Int) - 1)) ∧
    parseNaturalLanguageQuery "strings longer than 5" =
      .ok ⟨none, none, some 6, none, none⟩ ∧
    parseNaturalLanguageQuery "strings shorter than 5" =
      .ok ⟨none, none, none, some 4, none⟩ := by
  refine ⟨?_, ?_, by rfl, by rfl⟩
  · intro q n h hbound
    have h0 : (0 : Int) ≤ (n : Int) := Int.natCast_nonneg n
    have hle : (n : Int) ≤ maxInt64 := by omega
    have ha : atoiInt64 n = (n : Int) := min_eq_left hle
    have hw : wrap64 ((n : Int) + 1) = (n : Int) + 1 := by
      apply wrap64_eq_self
      · omega
      · unfold maxInt64 at hbound
        omega
    have hm : (buildFilters q).min_length = some ((n : Int) + 1) := by
      rw [buildFilters_eq]
      simp [h, ha, hw]
    refine ⟨buildFilters q, ?_, hm⟩
    rw [parse_ok_iff]
    refine ⟨fun he => ?_, rfl⟩
    rw [he] at hm
    simp [emptyFilters] at hm
  · intro q n h hbound
    have h0 : (0 : Int) ≤ (n : Int) := Int.natCast_nonneg n
    have ha : atoiInt64 n = (n : Int) := min_eq_left hbound
    have hw : wrap64 ((n : Int) - 1) = (n : Int) - 1 := by
      apply wrap64_eq_self
      · omega
      · unfold maxInt64 at hbound
        omega
    have hm : (buildFilters q).max_length = some ((n : Int) - 1) := by
      rw [buildFilters_eq]
      simp [h, ha, hw]
    refine ⟨buildFilters q, ?_, hm⟩
    rw [parse_ok_iff]
    refine ⟨fun he => ?_, rfl⟩
    rw [he] at hm
    simp [emptyFilters] at hm

/-- Witness for C1 (amended) at the concrete query `longer than 12`. -/
theorem longer_shorter_translation_bounded_witness :
    ∃ f, parseNaturalLanguageQuery "longer than 12" = .ok f ∧
      f.min_length = some (((12 : Nat) : Int) + 1) :=
  longer_shorter_translation_bounded.1 "longer than 12" 12 (by decide) (by decide)

/-- C2: translation fails exactly when none of the fixed patterns matches the
lower-cased query; a successful translation always has at least one filter
field set; and `banana` fails as unparseable. -/
theorem unparseable_iff_no_pattern :
    (∀ q : String,
        parseNaturalLanguageQuery q = .error "could not parse any filters from query" ↔
          (containsSub (lowerData q) "palindrom".data = false ∧
           containsSub (lowerData q) "single word".data = false ∧
           containsSub (lowerData q) "two word".data = false ∧
           findNumberAfter "longer than ".data (lowerData q) = none ∧
           findNumberAfter "shorter than ".data (lowerData q) = none ∧
           findContainsChar (lowerData q) = none ∧
           containsSub (lowerData q) "first vowel".data = false)) ∧
    (∀ (q : String) (f : NLFilters), parseNaturalLanguageQuery q = .ok f →
        f.is_palindrome ≠ none ∨ f.word_count ≠ none ∨ f.min_length ≠ none ∨
          f.max_length ≠ none ∨ f.contains_character ≠ none) ∧
    parseNaturalLanguageQuery "banana" =
      .error "could not parse any filters from query" := by
  refine ⟨?_, ?_, by rfl⟩
  · intro q
    rw [parse_error_iff, buildFilters_eq_empty_iff]
  · intro q f h
    rcases (parse_ok_iff q f).1 h with ⟨hne, hf⟩
    subst hf
    by_contra hall
    push_neg at hall
    obtain ⟨h1, h2, h3, h4, h5⟩ := hall
    apply hne
    cases hbf : buildFilters q with
    | mk p1 p2 p3 p4 p5 =>
      rw [hbf] at h1 h2 h3 h4 h5
      simp only [emptyFilters] at *
      simp_all

/-- Witness for C2: a successful parse of a concrete query has a field set. -/
theorem unparseable_iff_no_pattern_witness :
    (⟨some true, none, none, none, none⟩ : NLFilters).is_palindrome ≠ none ∨
    (⟨some true, none, none, none, none⟩ : NLFilters).word_count ≠ none ∨
    (⟨some true, none, none, none, none⟩ : NLFilters).min_length ≠ none ∨
    (⟨some true, none, none, none, none⟩ : NLFilters).max_length ≠ none ∨
    (⟨some true, none, none, none, none⟩ : NLFilters).contains_character ≠ none :=
  unparseable_iff_no_pattern.2.1 "palindromic" ⟨some true, none, none, none, none⟩ (by rfl)

/-- C3 fails as stated: the query `shorter than 0` parses successfully and
produces the negative numeric field `max_length = -1`. -/
theorem negative_max_length_counterexample :
    parseNaturalLanguageQuery "shorter than 0" =
      .ok ⟨none, none, none, some (-1), none⟩ ∧ ((-1 : Int) < 0) :=
  ⟨by rfl, by decide⟩

/-- C3 (amended): on every successful translation, `word_count` is
non-negative and `max_length = N−1` is bounded below by −1 (negative exactly
for `shorter than 0`), while `min_length` is either at least 1 or the
wrapped MinInt64 = −2^63 (when the captured N reaches MaxInt64); the
non-negativity required by the data model fails in both negative cases. -/
theorem parsed_numeric_fields_bounds64 (q : String) (f : NLFilters)
    (h : parseNaturalLanguageQuery q = .ok f) :
    (∀ n, f.min_length = some n → 1 ≤ n ∨ n = -9223372036854775808) ∧
    (∀ n, f.word_count = some n → 0 ≤ n) ∧
    (∀ n, f.max_length = some n → -1 ≤ n) := by
  rcases (parse_ok_iff q f).1 h with ⟨-, hf⟩
  subst hf
  rw [buildFilters_eq]
  refine ⟨?_, ?_, ?_⟩
  · intro n hn
    cases hl : findNumberAfter "longer than ".data (lowerData q) with
    | none => rw [hl] at hn; simp at hn
    | some m =>
      rw [hl] at hn
      simp only [Option.map_some', Option.some.injEq] at hn
      subst hn
      unfold atoiInt64
      have h0 : (0 : Int) ≤ (m : Int) := Int.natCast_nonneg m
      by_cases hcase : (m : Int) + 1 ≤ maxInt64
      · left
        have he : min ((m : Int)) maxInt64 = (m : Int) := min_eq_left (by omega)
        have hw : wrap64 ((m : Int) + 1) = (m : Int) + 1 := by
          apply wrap64_eq_self
          · omega
          · unfold maxInt64 at hcase
            omega
        rw [he, hw]
        omega
      · right
        have he : min ((m : Int)) maxInt64 = maxInt64 := min_eq_right (by omega)
        rw [he]
        decide
  · intro n hn
    simp only at hn
    split at hn <;> simp_all <;> omega
  · intro n hn
    cases hl : findNumberAfter "shorter than ".data (lowerData q) with
    | none => rw [hl] at hn; simp at hn
    | some m =>
      rw [hl] at hn
      simp only [Option.map_some', Option.some.injEq] at hn
      subst hn
      unfold atoiInt64
      have h0 : (0 : Int) ≤ (m : Int) := Int.natCast_nonneg m
      rcases min_cases ((m : Int)) maxInt64 with ⟨he, hle⟩ | ⟨he, -⟩
      · have hw : wrap64 ((m : Int) - 1) = (m : Int) - 1 := by
          apply wrap64_eq_self
          · omega
          · unfold maxInt64 at hle
            omega
        rw [he, hw]
        omega
      · rw [he]
        decide

/-- Witness for C3 (amended) at the concrete query `strings longer than 5`. -/
theorem parsed_numeric_fields_bounds64_witness :
    (1 : Int) ≤ 6 ∨ (6 : Int) = -9223372036854775808 :=
  (parsed_numeric_fields_bounds64 "strings longer than 5"
    ⟨none, none, some 6, none, none⟩ (by rfl)).1 6 rfl

/-- C4: `all single word palindromic strings` translates to exactly
`{is_palindrome: true, word_count: 1}`; `single word` takes priority over
`two word` for every query; and a record matches that filter set exactly
when it is a palindrome with word count 1. -/
theorem single_word_palindrome_query :
    parseNaturalLanguageQuery "all single word palindromic strings" =
      .ok ⟨some true, some 1, none, none, none⟩ ∧
    (∀ (q : String) (f : NLFilters),
        containsSub (lowerData q) "single word".data = true →
        parseNaturalLanguageQuery q = .ok f → f.word_count = some 1) ∧
    (∀ d : StringData,
        matchesNaturalFilters d ⟨some true, some 1, none, none, none⟩ = true ↔
          d.Properties.IsPalindrome = true ∧ d.Properties.WordCount = 1) := by
  refine ⟨by rfl, ?_, ?_⟩
  · intro q f hs h
    rcases (parse_ok_iff q f).1 h with ⟨-, hf⟩
    subst hf
    rw [buildFilters_eq]
    simp [hs]
  · intro d
    simp [matchesNaturalFilters]

/-- Witness for C4 at its own concrete query and a concrete record. -/
theorem single_word_palindrome_query_witness :
    (⟨some true, some 1, none, none, none⟩ : NLFilters).word_count = some 1 :=
  single_word_palindrome_query.2.1 "all single word palindromic strings"
    ⟨some true, some 1, none, none, none⟩ (by decide) (by rfl)

/-- `getD` at a valid index of a reversed list reads the mirrored index. -/
theorem getD_reverse_char (l : List Char) (i : Nat) (h : i < l.length) :
    l.reverse.getD i ' ' = l.getD (l.length - 1 - i) ' ' := by
  rw [List.getD_eq_getElem _ _ (by simpa using h),
    List.getD_eq_getElem _ _ (by omega : l.length - 1 - i < l.length)]
  exact List.getElem_reverse ..

/-- The source's half-range index comparison decides equality with the
reversed list. -/
theorem halfcheck_iff_reverse (l : List Char) :
    (((List.range (l.length / 2)).all fun i =>
        l.getD i ' ' == l.getD (l.length - 1 - i) ' ') = true) ↔ l = l.reverse := by
  rw [List.all_eq_true]
  constructor
  · intro h
    have hall : ∀ i, i < l.length / 2 → l.getD i ' ' = l.getD (l.length - 1 - i) ' ' := by
      intro i hi
      have := h i (List.mem_range.2 hi)
      simpa using this
    have hsym : ∀ i, i < l.length → l.getD i ' ' = l.getD (l.length - 1 - i) ' ' := by
      intro i hi
      by_cases h1 : i < l.length / 2
      · exact hall i h1
      · by_cases h2 : l.length - 1 - i < l.length / 2
        · have hh := hall _ h2
          have heq : l.length - 1 - (l.length - 1 - i) = i := by omega
          rw [heq] at hh
          exact hh.symm
        · have heq : l.length - 1 - i = i := by omega
          rw [heq]
    apply List.ext_getElem (by simp)
    intro i h1 h2
    rw [List.getElem_reverse]
    have hh := hsym i h1
    rwa [List.getD_eq_getElem _ _ h1,
      List.getD_eq_getElem _ _ (by omega : l.length - 1 - i < l.length)] at hh
  · intro h i hi
    have hilt : i < l.length := by
      have := List.mem_range.1 hi; omega
    have hstep : l.getD i ' ' = l.reverse.getD i ' ' := by rw [← h]
    rw [beq_iff_eq, hstep]
    exact getD_reverse_char l i hilt

/-- C5: the palindrome property is: strip every character that is not an
ASCII letter or digit, lower-case the remainder, and compare the resulting
sequence to its reverse; empty and single-character normalised sequences are
palindromes. -/
theorem palindrome_spec (s : String) :
    (isPalindrome s = true ↔
      normalizeForPalindrome s = (normalizeForPalindrome s).reverse) ∧
    ((normalizeForPalindrome s).length ≤ 1 → isPalindrome s = true) := by
  have hiff : isPalindrome s = true ↔
      normalizeForPalindrome s = (normalizeForPalindrome s).reverse := by
    unfold isPalindrome
    exact halfcheck_iff_reverse (normalizeForPalindrome s)
  refine ⟨hiff, fun hle => ?_⟩
  rw [hiff]
  rcases hl : normalizeForPalindrome s with - | ⟨a, - | ⟨b, t⟩⟩
  · rfl
  · rfl
  · rw [hl] at hle
    simp at hle

/-- Witness for C5: a string whose normalised form has length 1 is a
palindrome. -/
theorem palindrome_spec_witness : isPalindrome "a!" = true :=
  (palindrome_spec "a!").2 (by decide)

/-- C6 fails as stated: the value `A man a plan a canal Panama` has seven
whitespace-separated words, so its record's word count is not 6. -/
theorem panama_wordcount_counterexample :
    ¬ (analyzeString "A man a plan a canal Panama").WordCount = 6 := by decide

/-- C6 (amended): the record for `A man a plan a canal Panama` has
`is_palindrome = true` and `word_count = 7`. -/
theorem panama_record :
    (analyzeString "A man a plan a canal Panama").IsPalindrome = true ∧
    (analyzeString "A man a plan a canal Panama").WordCount = 7 := by decide

/-- C7: the structured filter engine returns true exactly when every present
predicate holds — inclusive length bounds, case-insensitive substring check
of the required character against the original value — and a filter set with
no fields present matches every record. -/
theorem matchesFilters_spec (d : StringData) (ip : Option Bool)
    (minL maxL wc : Option Int) (cc : String) :
    (matchesFilters d ip minL maxL wc cc = true ↔
      ((∀ b, ip = some b → d.Properties.IsPalindrome = b) ∧
       (∀ m, minL = some m → m ≤ (d.Properties.Length : Int)) ∧
       (∀ m, maxL = some m → (d.Properties.Length : Int) ≤ m) ∧
       (∀ w, wc = some w → (d.Properties.WordCount : Int) = w) ∧
       (cc ≠ "" → containsSub (lowerData d.Value) (lowerData cc) = true))) ∧
    matchesFilters d none none none none "" = true := by
  constructor
  · cases ip <;> cases minL <;> cases maxL <;> cases wc <;>
      by_cases hcc : cc = "" <;>
        simp [matchesFilters, hcc, Int.not_lt, and_assoc]
  · rfl

/-- Witness for C7: the empty filter set accepts a concrete record. -/
theorem matchesFilters_spec_witness :
    matchesFilters ⟨"ab", analyzeString "ab"⟩ none none none none "" = true :=
  (matchesFilters_spec ⟨"ab", analyzeString "ab"⟩ none none none none "").2

/-- Looking up a freshly appended binding succeeds. -/
theorem lookup_append_singleton (l : Store) (v : String) (d : StringData)
    (h : l.lookup v = none) : (l ++ [(v, d)]).lookup v = some d := by
  induction l with
  | nil => simp [List.lookup]
  | cons p t ih =>
    obtain ⟨k, x⟩ := p
    by_cases hvk : v = k
    · subst hvk
      simp [List.lookup] at h
    · have hb : (v == k) = false := beq_eq_false_iff_ne.2 hvk
      simp only [List.cons_append, List.lookup, hb] at h ⊢
      exact ih h

/-- Appending a binding for a different key preserves lookup failure. -/
theorem lookup_append_singleton_ne (l : Store) (a v : String) (d : StringData)
    (hne : a ≠ v) (h : l.lookup a = none) : (l ++ [(v, d)]).lookup a = none := by
  induction l with
  | nil => simp [List.lookup, beq_eq_false_iff_ne.2 hne]
  | cons p t ih =>
    obtain ⟨k, x⟩ := p
    by_cases hak : a = k
    · subst hak
      simp [List.lookup] at h
    · have hb : (a == k) = false := beq_eq_false_iff_ne.2 hak
      simp only [List.cons_append, List.lookup, hb] at h ⊢
      exact ih h

/-- After removing the bindings for `v`, looking up `v` fails. -/
theorem lookup_filter_self (l : Store) (v : String) :
    (l.filter fun p => p.1 != v).lookup v = none := by
  induction l with
  | nil => rfl
  | cons p t ih =>
    obtain ⟨k, x⟩ := p
    by_cases hkv : k = v
    · subst hkv
      simpa [List.filter] using ih
    · have hb : (k != v) = true := by simp [hkv]
      have hb2 : (v == k) = false := beq_eq_false_iff_ne.2 fun he => hkv he.symm
      simp only [List.filter, hb, List.lookup, hb2]
      exact ih

/-- Filtering preserves lookup failure. -/
theorem lookup_filter_none (l : Store) (a : String) (p : String × StringData → Bool)
    (h : l.lookup a = none) : (l.filter p).lookup a = none := by
  induction l with
  | nil => rfl
  | cons q t ih =>
    obtain ⟨k, x⟩ := q
    by_cases hak : a = k
    · subst hak
      simp [List.lookup] at h
    · have hb : (a == k) = false := beq_eq_false_iff_ne.2 hak
      simp only [List.lookup, hb] at h
      by_cases hp : p (k, x) = true
      · simp only [List.filter, hp, List.lookup, hb]
        exact ih h
      · have hp2 : p (k, x) = false := by
          cases hpv : p (k, x)
          · rfl
          · exact absurd hpv hp
        simp only [List.filter, hp2]
        exact ih h

/-- C8 fails as stated "for every value v": inserting the empty string twice
makes the second insert fail with InvalidInput (`Missing 'value' field`),
not Conflict, because `createString` validates the value before touching the
store. -/
theorem empty_insert_twice_counterexample :
    (createString (createString [] "").1 "").2 =
      .error (.invalidInput "Missing 'value' field") ∧
    ¬ (createString (createString [] "").1 "").2 =
      .error (.conflict "String already exists in the system") := by
  refine ⟨rfl, fun h => ?_⟩
  rw [show (createString (createString [] "").1 "").2 =
    (.error (.invalidInput "Missing 'value' field") : Except ApiError StringData) from rfl] at h
  injection h with h2
  cases h2

/-- C8 (amended): for every non-empty value v, inserting v twice makes the
second insert fail with Conflict; Get(v) after a successful Insert(v)
returns the stored record; Get(v) after Delete(v) fails with NotFound; and
every failing insert or delete leaves the store unchanged. -/
theorem store_roundtrip (S : Store) (v : String) (hv : v ≠ "") :
    ((createString (createString S v).1 v).2 =
      .error (.conflict "String already exists in the system")) ∧
    (∀ d, (createString S v).2 = .ok d →
      getSpecificString (createString S v).1 v = .ok d) ∧
    (getSpecificString (deleteString S v).1 v =
      .error (.notFound "String does not exist in the system")) ∧
    (∀ (T : Store) (w : String) (e : ApiError),
      (createString T w).2 = .error e → (createString T w).1 = T) ∧
    (∀ (T : Store) (w : String) (e : ApiError),
      (deleteString T w).2 = .error e → (deleteString T w).1 = T) := by
  refine ⟨?_, ?_, ?_, ?_, ?_⟩
  · cases hS : S.lookup v with
    | some d => simp [createString, hv, hS]
    | none =>
      have hl := lookup_append_singleton S v ⟨v, analyzeString v⟩ hS
      simp [createString, hv, hS, hl]
  · intro d hd
    cases hS : S.lookup v with
    | some x => simp [createString, hv, hS] at hd
    | none =>
      simp [createString, hv, hS] at hd
      subst hd
      have hl := lookup_append_singleton S v ⟨v, analyzeString v⟩ hS
      simp [createString, hv, hS, getSpecificString, hl]
  · cases hS : S.lookup v with
    | some d =>
      have hl := lookup_filter_self S v
      simp [deleteString, hS, getSpecificString, hl]
    | none => simp [deleteString, hS, getSpecificString]
  · intro T w e h
    by_cases hw : w = ""
    · simp [createString, hw]
    · cases hT : T.lookup w with
      | some d => simp [createString, hw, hT]
      | none => simp [createString, hw, hT] at h
  · intro T w e h
    cases hT : T.lookup w with
    | some d => simp [deleteString, hT] at h
    | none => simp [deleteString, hT]

/-- Witness for C8 (amended) at the empty store and the value `ab`. -/
theorem store_roundtrip_witness :
    ((createString (createString [] "ab").1 "ab").2 =
      .error (.conflict "String already exists in the system")) ∧
    (∀ d, (createString [] "ab").2 = .ok d →
      getSpecificString (createString [] "ab").1 "ab" = .ok d) ∧
    (getSpecificString (deleteString [] "ab").1 "ab" =
      .error (.notFound "String does not exist in the system")) ∧
    (∀ (T : Store) (w : String) (e : ApiError),
      (createString T w).2 = .error e → (createString T w).1 = T) ∧
    (∀ (T : Store) (w : String) (e : ApiError),
      (deleteString T w).2 = .error e → (deleteString T w).1 = T) :=
  store_roundtrip [] "ab" (by decide)

/-- C9: creating a record with an empty value always fails with the
invalid-input error `Missing 'value' field` and leaves the store exactly as
it was; no operation can ever make the empty string present in the store;
and the analyzer itself is total on the empty string. -/
theorem empty_value_rejected (S : Store) :
    createString S "" = (S, .error (.invalidInput "Missing 'value' field")) ∧
    (∀ v, S.lookup "" = none →
      ((createString S v).1.lookup "" = none ∧
       (deleteString S v).1.lookup "" = none)) ∧
    analyzeString "" = ⟨0, true, 0, 0, []⟩ := by
  refine ⟨rfl, ?_, by decide⟩
  intro v h
  constructor
  · by_cases hv : v = ""
    · simp [createString, hv, h]
    · cases hS : S.lookup v with
      | some d => simp [createString, hv, hS, h]
      | none =>
        have hl := lookup_append_singleton_ne S "" v ⟨v, analyzeString v⟩
          (fun he => hv he.symm) h
        simp [createString, hv, hS, hl]
  · cases hS : S.lookup v with
    | some d =>
      have hl := lookup_filter_none S "" (fun p => p.1 != v) h
      simp [deleteString, hS, hl]
    | none => simp [deleteString, hS, h]

/-- Witness for C9: after inserting `x` into the empty store, the empty
string is still absent. -/
theorem empty_value_rejected_witness :
    (createString [] "x").1.lookup "" = none ∧
    (deleteString [] "x").1.lookup "" = none :=
  (empty_value_rejected []).2.1 "x" rfl

/-- The UTF-8 byte size of a string is the sum of its code points' UTF-8
encoding sizes. -/
theorem utf8ByteSize_go_eq (l : List Char) :
    String.utf8ByteSize.go l = (l.map Char.utf8Size).sum := by
  induction l with
  | nil => rfl
  | cons c cs ih =>
    simp only [String.utf8ByteSize.go, ih, List.map_cons, List.sum_cons]
    omega

/-- Looking up a key in an association list pairing each element with a
computed value. -/
theorem lookup_pair_map (f : Char → Nat) (l : List Char) (c : Char) :
    (l.map fun x => (x, f x)).lookup c = if c ∈ l then some (f c) else none := by
  induction l with
  | nil => rfl
  | cons x t ih =>
    by_cases hcx : c = x
    · subst hcx
      simp [List.lookup]
    · have hb : (c == x) = false := beq_eq_false_iff_ne.2 hcx
      simp [List.lookup, hb, ih, hcx]

/-- C10: the stored Length is the byte count of the UTF-8 encoding, while
unique_characters counts distinct code points and the frequency map is keyed
per code point; for `é` the Length (2) exceeds the character count (1). -/
theorem length_bytes_vs_codepoints :
    (∀ s : String,
      (analyzeString s).Length = (s.data.map Char.utf8Size).sum ∧
      (analyzeString s).UniqueCharacters = s.data.dedup.length ∧
      (analyzeString s).CharacterFrequencyMap.map Prod.fst = s.data.dedup ∧
      (∀ c, c ∈ s.data →
        (analyzeString s).CharacterFrequencyMap.lookup c = some (s.data.count c))) ∧
    (analyzeString "é").Length = 2 ∧
    (analyzeString "é").UniqueCharacters = 1 ∧
    (analyzeString "é").UniqueCharacters < (analyzeString "é").Length := by
  refine ⟨?_, by decide, by decide, by decide⟩
  intro s
  refine ⟨?_, rfl, ?_, ?_⟩
  · show s.utf8ByteSize = _
    cases s with
    | mk l => exact utf8ByteSize_go_eq l
  · show (s.data.dedup.map fun c => (c, s.data.count c)).map Prod.fst = s.data.dedup
    rw [List.map_map]
    rw [show (Prod.fst ∘ fun c => (c, s.data.count c)) = id from rfl]
    exact List.map_id _
  · intro c hc
    show (s.data.dedup.map fun x => (x, s.data.count x)).lookup c = _
    rw [lookup_pair_map]
    simp [List.mem_dedup.2 hc]

/-- Witness for C10: the frequency map of `é` is keyed by the code point
`é` with count 1. -/
theorem length_bytes_vs_codepoints_witness :
    (analyzeString "é").CharacterFrequencyMap.lookup 'é' = some ("é".data.count 'é') :=
  (length_bytes_vs_codepoints.1 "é").2.2.2 'é' (by decide)

end StringService

